import Mathlib

/-!
Shallow embedding of `dask_spark/core.py` (the dask↔spark cluster bridge).

The source has five operations:
  * `start_master`  — launch a Spark master next to the dask scheduler,
  * `start_slave`   — launch a Spark slave on a dask worker,
  * `_dask_to_spark`/`dask_to_spark` — the forward bridge (dask → spark),
  * `start_worker`  — the "become a dask worker" bootstrap run in Spark slots,
  * `spark_to_dask` — the reverse bridge (spark → dask) with its polling loop.

The embedding below mirrors the Python control flow: dicts are association
lists preserving insertion order (CPython dict semantics), subprocess
launches become recorded commands, the mutable per-process extension slot
becomes explicit state passing, exceptions become `Except`, and the two
waiting loops become fuel-indexed functions over a sequence of observations
of the external state (the scheduler's worker registry, the worker status).
Numeric figures (cores, bytes of memory) are exact naturals / rationals,
with Python `int()` truncation made explicit where the source applies it.
-/

set_option maxRecDepth 10000

namespace DaskSpark

/-! ## Reverse-bridge polling loop (`spark_to_dask`, core.py lines 143-153)

`for i in range(1, 1000): if cluster.scheduler.workers: break; ...; sleep(0.01)`
followed by `if i == 999: raise TimeoutError("No workers arrived")`.

`present k` records whether the scheduler's worker registry was non-empty at
the k-th check (the check happens at the top of iteration k, before the
sleep).  `waitLoop present i fuel` returns the pair
(final value of the loop variable `i`, number of iterations executed). -/

def waitLoop (present : Nat → Bool) : Nat → Nat → Nat × Nat
  | i, 0 => (i, 0)
  | i, fuel + 1 =>
    if present i then (i, 1)
    else
      match fuel with
      | 0 => (i, 1)
      | f + 1 =>
        let r := waitLoop present (i + 1) (f + 1)
        (r.1, r.2 + 1)

/-- Final value of the Python loop variable `i` after
`for i in range(1, 1000)` with the early `break` on a non-empty registry. -/
def pollFinal (present : Nat → Bool) : Nat :=
  (waitLoop present 1 999).1

/-- Number of polling iterations the loop executes. -/
def pollIters (present : Nat → Bool) : Nat :=
  (waitLoop present 1 999).2

/-- Outcome of `spark_to_dask` as far as the timeout is concerned:
`Except.error "No workers arrived"` models `raise TimeoutError(...)`,
which the source guards with `if i == 999`. -/
def spark_to_dask (present : Nat → Bool) : Except String Unit :=
  if pollFinal present = 999 then Except.error "No workers arrived"
  else Except.ok ()

/-! ## Host aggregation of the forward bridge (`_dask_to_spark`, lines 49-70)

`cluster_info['workers']` maps worker address to an info dict with fields
`host`, `ncores` and (optionally) `memory_limit`.  The snapshot is embedded
as an association list of (address, WorkerInfo) pairs in the dict's
iteration order; the `hosts` dict built by the loop is likewise an
association list in insertion order, since CPython dicts iterate in
insertion order and in-place updates keep the original position. -/

structure WorkerInfo where
  host : String
  ncores : Nat
  memory_limit : Option Nat
deriving DecidableEq, Repr

structure HostSummary where
  address : String
  cores : Nat
  memory : Nat
deriving DecidableEq, Repr

/-- `info.get('memory_limit', 4e9)`; memory figures are exact byte counts. -/
def memOrDefault (info : WorkerInfo) : Nat :=
  info.memory_limit.getD 4000000000

def lookupKey {β : Type} : List (String × β) → String → Option β
  | [], _ => none
  | (k, v) :: rest, h => if k = h then some v else lookupKey rest h

/-- One iteration of the aggregation loop: if the worker's host is absent a
fresh zeroed entry is appended (then incremented), otherwise the existing
entry is incremented in place. -/
def addWorker : List (String × HostSummary) → String → WorkerInfo → List (String × HostSummary)
  | [], addr, info => [(info.host, ⟨addr, info.ncores, memOrDefault info⟩)]
  | (h, s) :: rest, addr, info =>
    if h = info.host then
      (h, ⟨s.address, s.cores + info.ncores, s.memory + memOrDefault info⟩) :: rest
    else
      (h, s) :: addWorker rest addr info

/-- The `hosts` dict produced by the aggregation loop of `_dask_to_spark`. -/
def aggregate (workers : List (String × WorkerInfo)) : List (String × HostSummary) :=
  workers.foldl (fun hosts p => addWorker hosts p.1 p.2) []

/-- Reference sum: total `ncores` over exactly the workers on host `h`. -/
def sumCores (ws : List (String × WorkerInfo)) (h : String) : Nat :=
  ((ws.filter (fun p => p.2.host == h)).map (fun p => p.2.ncores)).sum

/-- Reference sum: total memory over exactly the workers on host `h`,
substituting the 4e9-byte default for a worker lacking a memory figure. -/
def sumMem (ws : List (String × WorkerInfo)) (h : String) : Nat :=
  ((ws.filter (fun p => p.2.host == h)).map (fun p => memOrDefault p.2)).sum

/-- Address of the first worker (in iteration order) whose host is `h`. -/
def firstAddr (ws : List (String × WorkerInfo)) (h : String) : Option String :=
  (ws.find? (fun p => p.2.host == h)).map Prod.fst

/-- A remote launch call issued by `_dask_to_spark`: `launchMaster` is the
`client._run_on_scheduler(start_master)` call, `launchSlave` is one
`client._run(start_slave, master, cores=..., memory=..., workers=[addr])`
call dispatched for the summary entry of host `host`. -/
inductive Command where
  | launchMaster : Command
  | launchSlave (master : String) (host : String) (addr : String)
      (cores : Nat) (memory : Nat) : Command
deriving DecidableEq, Repr

def Command.isMaster : Command → Bool
  | .launchMaster => true
  | _ => false

def Command.isSlaveFor (h : String) : Command → Bool
  | .launchSlave _ host _ _ _ => host == h
  | _ => false

/-- Control flow of `_dask_to_spark` after the snapshot arrives: build the
`hosts` dict, raise `ValueError("No workers found")` if it is empty (before
any remote call), otherwise issue one master launch followed by one slave
launch per entry of `hosts` (in insertion order), passing that entry's
accumulated cores and memory.  `masterAddr` is the address string returned
by the remote `start_master` call.  The result is the list of issued remote
calls together with the raised error, if any. -/
def forwardBridge (ws : List (String × WorkerInfo)) (masterAddr : String) :
    List Command × Option String :=
  let hosts := aggregate ws
  if hosts.isEmpty then ([], some "No workers found")
  else
    (Command.launchMaster ::
       hosts.map (fun p => Command.launchSlave masterAddr p.1 p.2.address p.2.cores p.2.memory),
     none)

/-- The scenario snapshot of C2: w1 and w2 on host A (the second with no
memory figure), w3 on host B. -/
def c2snapshot : List (String × WorkerInfo) :=
  [("w1", ⟨"A", 4, some 8000000000⟩),
   ("w2", ⟨"A", 2, none⟩),
   ("w3", ⟨"B", 8, some 16000000000⟩)]

/-! ## Spark-slot worker bootstrap (`start_worker`, lines 93-115) -/

/-- Observable step of one `start_worker` run: starting the `Worker`
(`w = Worker(address); w.start(0)`), setting or clearing the per-process
`distributed.global_worker` marker, one observation of `w.status` by the
wait loop, and the returned value. -/
inductive WEvent where
  | startWorker (address : String)
  | setMarker
  | pollStatus (s : String)
  | clearMarker
  | ret (r : List String)
deriving DecidableEq, Repr

/-- The `while w.status != 'closed': yield gen.sleep(0.1)` wait: `status i`
is the worker status observed at the i-th check.  Returns the non-closed
status observations, or `none` when the status does not reach 'closed'
within `fuel` checks (the source loop would still be blocking the slot). -/
def pollUntilClosed (status : Nat → String) : Nat → Nat → Option (List WEvent)
  | _, 0 => none
  | i, fuel + 1 =>
    if status i = "closed" then some []
    else
      match pollUntilClosed status (i + 1) fuel with
      | none => none
      | some evs => some (WEvent.pollStatus (status i) :: evs)

/-- One run of `start_worker(address)` as its trace of observable events.
`occupied` is the truthiness of `getattr(distributed, 'global_worker',
False)` at entry: when set, the call returns `['already occupied']` at
once; otherwise it starts a worker, sets the marker, waits for status
'closed', clears the marker and returns `['completed']`. -/
def start_worker (address : String) (occupied : Bool) (status : Nat → String)
    (fuel : Nat) : Option (List WEvent) :=
  if occupied then some [WEvent.ret ["already occupied"]]
  else
    match pollUntilClosed status 0 fuel with
    | none => none
    | some evs =>
      some ([WEvent.startWorker address, WEvent.setMarker] ++ evs ++
        [WEvent.clearMarker, WEvent.ret ["completed"]])

/-- A worker status trajectory used to instantiate `start_worker`:
'running' at the first check, 'closed' afterwards. -/
def statusSeq : Nat → String :=
  fun i => if i = 0 then "running" else "closed"

/-! ## Slave launch (`start_slave`, lines 33-44) -/

/-- Python `int()` on an exact rational: truncation toward zero. -/
def pyInt (q : Rat) : Int :=
  if 0 ≤ q then q.floor else q.ceil

/-- `start_slave(master, cores, memory)`: the `start-slave.sh` argv it
spawns (memory passed as `str(int(memory)) + 'B'`) and the returned
`'OK'` token. -/
def start_slave (master : String) (cores : Nat) (memory : Rat) : List String × String :=
  (["start-slave.sh", master, "--cores", toString cores,
    "--memory", toString (pyInt memory) ++ "B"], "OK")

/-! ## Master launch (`start_master`, lines 17-30) -/

/-- Python `s.split(':')` on the scheduler address, over character lists. -/
def splitColon : List Char → List (List Char)
  | [] => [[]]
  | c :: rest =>
    match splitColon rest with
    | [] => [[]]
    | g :: gs => if c = ':' then [] :: g :: gs else (c :: g) :: gs

def stripChars (c : Char) : Bool :=
  c == ':' || c == '/'

/-- Python `s.strip(':/')`: drop leading and trailing ':' and '/'. -/
def pyStrip (cs : List Char) : List Char :=
  ((cs.dropWhile stripChars).reverse.dropWhile stripChars).reverse

/-- What one `start_master` call produces: the returned master address,
the spawned `start-master.sh` argv, and the scheduler's extension slots
after `dask_scheduler.extensions['spark'] = proc`. -/
structure MasterResult where
  master : String
  argv : List String
  extensions : List (String × Nat)
deriving DecidableEq, Repr

/-- Python dict assignment `d[k] = v`: overwrite in place, else append. -/
def dictInsert : List (String × Nat) → String → Nat → List (String × Nat)
  | [], k, v => [(k, v)]
  | (k2, v2) :: rest, k, v =>
    if k2 = k then (k, v) :: rest else (k2, v2) :: dictInsert rest k v

/-- `start_master(dask_scheduler, port)`: unpack
`scheme, host, _ = dask_scheduler.address.split(':')` (a ValueError when
the split does not yield exactly three parts), strip ':' and '/' from the
host part, spawn `start-master.sh --host host --port port`, overwrite the
scheduler's 'spark' extension slot with the fresh process handle `proc`,
and return `'spark://%s:%d' % (host, port)`. -/
def start_master (address : String) (port : Nat) (proc : Nat)
    (extensions : List (String × Nat)) : Except String MasterResult :=
  match splitColon address.toList with
  | [_scheme, hostRaw, _last] =>
    let host := String.mk (pyStrip hostRaw)
    Except.ok
      { master := "spark://" ++ host ++ ":" ++ toString port
        argv := ["start-master.sh", "--host", host, "--port", toString port]
        extensions := dictInsert extensions "spark" proc }
  | _ => Except.error "ValueError: not enough values to unpack"

theorem waitLoop_final_le (present : Nat → Bool) :
    ∀ fuel i, (waitLoop present i (fuel + 1)).1 ≤ i + fuel := by
  intro fuel
  induction fuel with
  | zero =>
    intro i
    simp only [waitLoop]
    split
    · exact Nat.le_refl _
    · exact Nat.le_refl _
  | succ f ih =>
    intro i
    simp only [waitLoop]
    split
    · exact Nat.le_add_right _ _
    · have h := ih (i + 1)
      simp only []
      omega

theorem waitLoop_final_le_of_present (present : Nat → Bool) :
    ∀ fuel i k, i ≤ k → k < i + (fuel + 1) → present k = true →
      (waitLoop present i (fuel + 1)).1 ≤ k := by
  intro fuel
  induction fuel with
  | zero =>
    intro i k hik hk hp
    have hki : k = i := by omega
    subst hki
    simp [waitLoop, hp]
  | succ f ih =>
    intro i k hik hk hp
    by_cases hi : present i = true
    · simp only [waitLoop, hi, if_true]
      exact hik
    · have hik' : i + 1 ≤ k := by
        rcases Nat.eq_or_lt_of_le hik with h | h
        · exact absurd (h ▸ hp) hi
        · omega
      have h2 := ih (i + 1) k hik' (by omega) hp
      simp only [waitLoop, if_neg hi]
      exact h2

theorem waitLoop_final_of_absent (present : Nat → Bool) :
    ∀ fuel i, (∀ k, i ≤ k → k + 1 < i + (fuel + 1) → present k = false) →
      (waitLoop present i (fuel + 1)).1 = i + fuel := by
  intro fuel
  induction fuel with
  | zero =>
    intro i _
    simp only [waitLoop]
    split
    · rfl
    · rfl
  | succ f ih =>
    intro i h
    have hi : present i = false := h i (Nat.le_refl i) (by omega)
    have hi' : ¬ present i = true := by simp [hi]
    simp only [waitLoop, if_neg hi']
    have h2 := ih (i + 1) (fun k hk1 hk2 => h k (by omega) (by omega))
    omega

theorem waitLoop_iters_eq_final (present : Nat → Bool) :
    ∀ fuel i, (waitLoop present i (fuel + 1)).2 + i = (waitLoop present i (fuel + 1)).1 + 1 := by
  intro fuel
  induction fuel with
  | zero =>
    intro i
    simp only [waitLoop]
    split
    · omega
    · omega
  | succ f ih =>
    intro i
    by_cases hi : present i = true
    · simp only [waitLoop, if_pos hi]
      omega
    · have h2 := ih (i + 1)
      simp only [waitLoop, if_neg hi]
      omega

theorem pollIters_eq_pollFinal (present : Nat → Bool) :
    pollIters present = pollFinal present := by
  have h : (waitLoop present 1 999).2 + 1 = (waitLoop present 1 999).1 + 1 :=
    waitLoop_iters_eq_final present 998 1
  unfold pollIters pollFinal
  omega

/-- C1 (counterexample): the claimed equivalence "`spark_to_dask` raises the
timeout error iff zero workers are registered at every one of the 999
polling iterations" is false on the run where the registry first becomes
non-empty exactly at the 999th check: the loop breaks with `i == 999`, and
the `if i == 999` guard still raises `TimeoutError("No workers arrived")`
even though a worker was registered at iteration 999. -/
theorem C1_counterexample_worker_at_999 :
    ¬ ((spark_to_dask (fun k => k == 999) = Except.error "No workers arrived") ↔
        ∀ k, 1 ≤ k → k ≤ 999 → (fun k => k == 999) k = false) := by
  intro h
  have h999 := h.mp (by rfl) 999 (by omega) (by omega)
  simp at h999

/-- C1 (amended): `spark_to_dask` raises the timeout error iff zero workers
are registered at every one of the first 998 polling iterations; a worker
registered at some iteration k with 1 ≤ k ≤ 998 prevents the timeout, but a
worker first registered at iteration 999 does not. -/
theorem C1_timeout_iff_no_worker_within_998 (present : Nat → Bool) :
    spark_to_dask present = Except.error "No workers arrived" ↔
      ∀ k, 1 ≤ k → k ≤ 998 → present k = false := by
  unfold spark_to_dask
  constructor
  · intro h k h1 h2
    by_contra hp
    rw [Bool.not_eq_false] at hp
    have hle : (waitLoop present 1 999).1 ≤ k :=
      waitLoop_final_le_of_present present 998 1 k h1 (by omega) hp
    by_cases hf : pollFinal present = 999
    · unfold pollFinal at hf
      omega
    · rw [if_neg hf] at h
      exact Except.noConfusion h
  · intro h
    have hfin : (waitLoop present 1 999).1 = 1 + 998 :=
      waitLoop_final_of_absent present 998 1 (fun k hk1 hk2 => h k hk1 (by omega))
    have hf : pollFinal present = 999 := by
      unfold pollFinal
      omega
    rw [if_pos hf]

/-- Witness for C1's amended theorem: on the run where no worker ever
registers, `spark_to_dask` raises the timeout error. -/
theorem C1_timeout_witness :
    spark_to_dask (fun _ => false) = Except.error "No workers arrived" :=
  (C1_timeout_iff_no_worker_within_998 (fun _ => false)).mpr (fun _ _ _ => rfl)

/-- C5: the `spark_to_dask` polling loop executes at most 999 iterations,
and if the worker registry is non-empty at some iteration k with k < 999,
it executes at most k iterations (it exits by iteration k). -/
theorem C5_poll_loop_bounded (present : Nat → Bool) :
    pollIters present ≤ 999 ∧
      ∀ k, 1 ≤ k → k < 999 → present k = true → pollIters present ≤ k := by
  have hiters := pollIters_eq_pollFinal present
  constructor
  · have hle : (waitLoop present 1 999).1 ≤ 1 + 998 := waitLoop_final_le present 998 1
    unfold pollFinal at hiters
    omega
  · intro k h1 h2 hp
    have hle : (waitLoop present 1 999).1 ≤ k :=
      waitLoop_final_le_of_present present 998 1 k h1 (by omega) hp
    unfold pollFinal at hiters
    omega

/-- Witness for C5: on the run where the registry first becomes non-empty at
iteration 5, the loop executes at most 5 iterations (and at most 999). -/
theorem lookupKey_addWorker (hosts : List (String × HostSummary)) (addr : String)
    (info : WorkerInfo) (h : String) :
    lookupKey (addWorker hosts addr info) h =
      if h = info.host then
        match lookupKey hosts info.host with
        | none => some ⟨addr, info.ncores, memOrDefault info⟩
        | some s => some ⟨s.address, s.cores + info.ncores, s.memory + memOrDefault info⟩
      else lookupKey hosts h := by
  induction hosts with
  | nil =>
    by_cases hh : h = info.host
    · subst hh
      simp [addWorker, lookupKey]
    · have hh' : ¬ (info.host = h) := fun e => hh e.symm
      simp [addWorker, lookupKey, hh, hh']
  | cons p rest ih =>
    obtain ⟨k, s⟩ := p
    simp only [addWorker]
    by_cases hk : k = info.host
    · rw [if_pos hk]
      by_cases hkh : k = h
      · have hh : h = info.host := hkh.symm.trans hk
        simp [lookupKey, hk, hkh, hh]
      · have hh : ¬ (h = info.host) := fun e => hkh (hk.trans e.symm)
        have hh2 : ¬ (info.host = h) := fun e => hh e.symm
        simp [lookupKey, hk, hkh, hh, hh2]
    · rw [if_neg hk]
      by_cases hkh : k = h
      · have hh : ¬ (h = info.host) := fun e => hk (hkh.trans e)
        simp [lookupKey, hkh, hh]
      · simp [lookupKey, hk, hkh, ih]

theorem aggregate_append_single (ws : List (String × WorkerInfo)) (w : String × WorkerInfo) :
    aggregate (ws ++ [w]) = addWorker (aggregate ws) w.1 w.2 := by
  simp [aggregate]

theorem sumCores_append_single (ws : List (String × WorkerInfo)) (w : String × WorkerInfo)
    (h : String) :
    sumCores (ws ++ [w]) h =
      sumCores ws h + (if w.2.host == h then w.2.ncores else 0) := by
  by_cases hw : w.2.host == h
  · simp [sumCores, hw]
  · simp [sumCores, hw]

theorem sumMem_append_single (ws : List (String × WorkerInfo)) (w : String × WorkerInfo)
    (h : String) :
    sumMem (ws ++ [w]) h =
      sumMem ws h + (if w.2.host == h then memOrDefault w.2 else 0) := by
  by_cases hw : w.2.host == h
  · simp [sumMem, hw]
  · simp [sumMem, hw]

theorem firstAddr_append_single (ws : List (String × WorkerInfo)) (w : String × WorkerInfo)
    (h : String) :
    firstAddr (ws ++ [w]) h =
      (firstAddr ws h).or (if w.2.host == h then some w.1 else none) := by
  unfold firstAddr
  rw [List.find?_append]
  cases hfa : List.find? (fun p => p.2.host == h) ws with
  | none =>
    by_cases hw : (w.2.host == h) = true
    · simp [hw]
    · simp [hw]
  | some a => simp

theorem firstAddr_none_iff (ws : List (String × WorkerInfo)) (h : String) :
    firstAddr ws h = none ↔ ∀ p ∈ ws, ¬ (p.2.host == h) = true := by
  unfold firstAddr
  cases hfa : List.find? (fun p => p.2.host == h) ws with
  | none =>
    simp only [Option.map_none', true_iff]
    exact (List.find?_eq_none).mp hfa
  | some a =>
    have ha := List.find?_some hfa
    have hmem := List.mem_of_find?_eq_some hfa
    simp only [Option.map_some']
    constructor
    · intro hcon
      exact Option.noConfusion hcon
    · intro hall
      exact absurd ha (hall a hmem)

theorem sumCores_of_firstAddr_none (ws : List (String × WorkerInfo)) (h : String)
    (hn : firstAddr ws h = none) : sumCores ws h = 0 := by
  rw [firstAddr_none_iff] at hn
  simp [sumCores, List.filter_eq_nil_iff.mpr hn]

theorem sumMem_of_firstAddr_none (ws : List (String × WorkerInfo)) (h : String)
    (hn : firstAddr ws h = none) : sumMem ws h = 0 := by
  rw [firstAddr_none_iff] at hn
  simp [sumMem, List.filter_eq_nil_iff.mpr hn]

/-- Characterisation of the aggregation loop: looking up host `h` in the
`hosts` dict built by `_dask_to_spark` yields the first matching worker's
address together with the per-host core and memory sums. -/
theorem lookupKey_aggregate (ws : List (String × WorkerInfo)) (h : String) :
    lookupKey (aggregate ws) h =
      match firstAddr ws h with
      | none => none
      | some a => some ⟨a, sumCores ws h, sumMem ws h⟩ := by
  induction ws using List.reverseRecOn with
  | nil => simp [aggregate, lookupKey, firstAddr]
  | append_singleton ws w ih =>
    rw [aggregate_append_single, lookupKey_addWorker, firstAddr_append_single,
      sumCores_append_single, sumMem_append_single]
    by_cases hh : h = w.2.host
    · rw [hh] at ih ⊢
      rw [if_pos rfl, ih]
      cases hfa : firstAddr ws w.2.host with
      | none =>
        rw [sumCores_of_firstAddr_none ws w.2.host hfa,
          sumMem_of_firstAddr_none ws w.2.host hfa]
        simp
      | some a => simp
    · have hne : ¬ (w.2.host == h) = true := by
        rw [beq_iff_eq]
        exact fun e => hh e.symm
      rw [if_neg hh, ih]
      simp only [if_neg hne]
      cases hfa : firstAddr ws h with
      | none => simp
      | some a => simp

theorem C5_poll_loop_bounded_witness :
    pollIters (fun k => k == 5) ≤ 999 ∧ pollIters (fun k => k == 5) ≤ 5 :=
  ⟨(C5_poll_loop_bounded (fun k => k == 5)).1,
   (C5_poll_loop_bounded (fun k => k == 5)).2 5 (by omega) (by omega) (by rfl)⟩

theorem lookupKey_aggregate_eq_none_iff (ws : List (String × WorkerInfo)) (h : String) :
    lookupKey (aggregate ws) h = none ↔ firstAddr ws h = none := by
  rw [lookupKey_aggregate]
  cases hfa : firstAddr ws h with
  | none => simp
  | some a => simp

theorem addWorker_ne_nil (hosts : List (String × HostSummary)) (addr : String)
    (info : WorkerInfo) : addWorker hosts addr info ≠ [] := by
  cases hosts with
  | nil => simp [addWorker]
  | cons p rest =>
    obtain ⟨k, s⟩ := p
    by_cases hk : k = info.host
    · simp [addWorker, hk]
    · simp [addWorker, hk]

theorem aggregate_eq_nil_iff (ws : List (String × WorkerInfo)) :
    aggregate ws = [] ↔ ws = [] := by
  constructor
  · intro hagg
    cases ws with
    | nil => rfl
    | cons p rest =>
      exfalso
      have h1 : firstAddr (p :: rest) p.2.host = some p.1 := by
        unfold firstAddr
        rw [List.find?_cons_of_pos _ (by simp)]
        rfl
      have h2 := lookupKey_aggregate (p :: rest) p.2.host
      rw [h1, hagg] at h2
      simp [lookupKey] at h2
  · intro h
    subst h
    rfl

/-- C2: for each host appearing in a non-empty snapshot, the `hosts` entry
built by `_dask_to_spark` accumulates exactly the `ncores` sum and the
memory sum (with the 4e9-byte default for workers lacking a figure) over
the workers on that host; and the C2 scenario snapshot aggregates to
{A: cores 6, memory 12e9 (rep. w1), B: cores 8, memory 16e9 (rep. w3)}. -/
theorem C2_host_aggregation_sums :
    (∀ (ws : List (String × WorkerInfo)) (h : String), ws ≠ [] →
        (∃ p ∈ ws, p.2.host = h) →
        ∃ s, lookupKey (aggregate ws) h = some s ∧
          s.cores = sumCores ws h ∧ s.memory = sumMem ws h) ∧
      aggregate c2snapshot =
        [("A", ⟨"w1", 6, 12000000000⟩), ("B", ⟨"w3", 8, 16000000000⟩)] := by
  constructor
  · intro ws h _ hex
    rw [lookupKey_aggregate]
    cases hfa : firstAddr ws h with
    | none =>
      rw [firstAddr_none_iff] at hfa
      obtain ⟨p, hp, hph⟩ := hex
      exact absurd (beq_iff_eq.mpr hph) (hfa p hp)
    | some a => exact ⟨_, rfl, rfl, rfl⟩
  · rfl

/-- Witness for C2 at the scenario snapshot and host A. -/
theorem C2_host_aggregation_sums_witness :
    ∃ s, lookupKey (aggregate c2snapshot) "A" = some s ∧
      s.cores = sumCores c2snapshot "A" ∧ s.memory = sumMem c2snapshot "A" :=
  C2_host_aggregation_sums.1 c2snapshot "A" (by decide)
    ⟨("w1", ⟨"A", 4, some 8000000000⟩), by decide, rfl⟩

/-- C3: an empty snapshot makes `_dask_to_spark` raise
`ValueError("No workers found")` with no launch command issued, and the
aggregation yields an empty `hosts` dict only on the empty snapshot (so an
empty mapping is never returned silently: it always triggers the error). -/
theorem C3_empty_cluster_error (ws : List (String × WorkerInfo)) (masterAddr : String) :
    (ws = [] → forwardBridge ws masterAddr = ([], some "No workers found")) ∧
      (aggregate ws = [] ↔ ws = []) := by
  constructor
  · intro h
    subst h
    rfl
  · exact aggregate_eq_nil_iff ws

/-- Witness for C3 at the empty snapshot. -/
theorem C3_empty_cluster_error_witness :
    forwardBridge [] "spark://h:7077" = ([], some "No workers found") :=
  (C3_empty_cluster_error [] "spark://h:7077").1 rfl

/-- C8: the representative address recorded for a host is the address of
the first worker with that host in the snapshot's iteration order. -/
theorem C8_representative_is_first (ws : List (String × WorkerInfo)) (h : String)
    (s : HostSummary) (hs : lookupKey (aggregate ws) h = some s) :
    firstAddr ws h = some s.address := by
  rw [lookupKey_aggregate] at hs
  cases hfa : firstAddr ws h with
  | none =>
    rw [hfa] at hs
    exact Option.noConfusion hs
  | some a =>
    rw [hfa] at hs
    have := Option.some.inj hs
    rw [← this]

/-- Witness for C8: two workers on the same host; the representative
address is the first one's. -/
theorem C8_representative_is_first_witness :
    firstAddr [("a1", ⟨"H", 1, none⟩), ("a2", ⟨"H", 2, none⟩)] "H" =
      some (HostSummary.address ⟨"a1", 3, 8000000000⟩) :=
  C8_representative_is_first [("a1", ⟨"H", 1, none⟩), ("a2", ⟨"H", 2, none⟩)] "H"
    ⟨"a1", 3, 8000000000⟩ (by rfl)

theorem length_filter_addWorker (hosts : List (String × HostSummary)) (addr : String)
    (info : WorkerInfo) (h : String) :
    ((addWorker hosts addr info).filter (fun p => p.1 == h)).length =
      (hosts.filter (fun p => p.1 == h)).length +
        (if info.host = h ∧ lookupKey hosts info.host = none then 1 else 0) := by
  induction hosts with
  | nil =>
    by_cases hih : info.host = h
    · simp [addWorker, List.filter, lookupKey, hih]
    · have hb : (info.host == h) = false := by simp [hih]
      simp [addWorker, List.filter, lookupKey, hih, hb]
  | cons p rest ih =>
    obtain ⟨k, s⟩ := p
    by_cases hk : k = info.host
    · have hlk : lookupKey ((k, s) :: rest) info.host = some s := by
        simp [lookupKey, hk]
      simp only [addWorker, if_pos hk, hlk, List.filter_cons]
      by_cases hkh : (k == h) = true
      · simp [hkh]
      · simp [hkh]
    · have hlk : lookupKey ((k, s) :: rest) info.host = lookupKey rest info.host := by
        simp [lookupKey, hk]
      simp only [addWorker, if_neg hk, hlk, List.filter_cons]
      by_cases hkh : (k == h) = true
      · simp only [hkh, if_true, List.length_cons, ih]
        omega
      · simp only [hkh, Bool.false_eq_true, if_false, ih]

theorem length_filter_aggregate (ws : List (String × WorkerInfo)) (h : String) :
    ((aggregate ws).filter (fun p => p.1 == h)).length =
      if (firstAddr ws h).isSome then 1 else 0 := by
  induction ws using List.reverseRecOn with
  | nil => simp [aggregate, firstAddr]
  | append_singleton ws w ih =>
    rw [aggregate_append_single, length_filter_addWorker, ih, firstAddr_append_single]
    by_cases hwh : w.2.host = h
    · have hbeq : (w.2.host == h) = true := beq_iff_eq.mpr hwh
      cases hfa : firstAddr ws h with
      | none =>
        have hlk : lookupKey (aggregate ws) w.2.host = none := by
          rw [lookupKey_aggregate_eq_none_iff, hwh]
          exact hfa
        rw [if_pos (show w.2.host = h ∧ lookupKey (aggregate ws) w.2.host = none from
          ⟨hwh, hlk⟩)]
        simp [hbeq]
      | some a =>
        have hlk : ¬ lookupKey (aggregate ws) w.2.host = none := by
          rw [lookupKey_aggregate_eq_none_iff, hwh, hfa]
          exact fun hc => Option.noConfusion hc
        rw [if_neg (show ¬ (w.2.host = h ∧ lookupKey (aggregate ws) w.2.host = none) from
          fun hc => hlk hc.2)]
        simp
    · have hbeq : (w.2.host == h) = false := by simp [hwh]
      rw [if_neg (show ¬ (w.2.host = h ∧ lookupKey (aggregate ws) w.2.host = none) from
        fun hc => hwh hc.1)]
      simp [hbeq, Option.or_none]

theorem filter_isMaster_map_slave (hosts : List (String × HostSummary)) (m : String) :
    ((hosts.map (fun p => Command.launchSlave m p.1 p.2.address p.2.cores p.2.memory)).filter
      Command.isMaster) = [] := by
  induction hosts with
  | nil => rfl
  | cons p rest ih => simp [Command.isMaster, ih]

theorem length_filter_isSlaveFor_map_slave (hosts : List (String × HostSummary)) (m : String)
    (h : String) :
    ((hosts.map (fun p => Command.launchSlave m p.1 p.2.address p.2.cores p.2.memory)).filter
        (Command.isSlaveFor h)).length =
      (hosts.filter (fun p => p.1 == h)).length := by
  induction hosts with
  | nil => rfl
  | cons p rest ih =>
    by_cases hph : (p.1 == h) = true
    · simp [Command.isSlaveFor, hph, ih]
    · simp [Command.isSlaveFor, hph, ih]

/-- C4: on a non-empty snapshot the forward bridge raises no error, issues
exactly one master launch, and exactly one slave launch per distinct host
present in the snapshot (and none for absent hosts), however many workers
each host has. -/
theorem C4_one_master_one_slave_per_host (ws : List (String × WorkerInfo)) (m : String)
    (hne : ws ≠ []) :
    (forwardBridge ws m).2 = none ∧
      ((forwardBridge ws m).1.filter Command.isMaster).length = 1 ∧
      ∀ h, ((forwardBridge ws m).1.filter (Command.isSlaveFor h)).length =
        if (firstAddr ws h).isSome then 1 else 0 := by
  have hagg : aggregate ws ≠ [] := fun hc => hne ((aggregate_eq_nil_iff ws).mp hc)
  have hie : (aggregate ws).isEmpty = false := by
    cases hb : aggregate ws with
    | nil => exact absurd hb hagg
    | cons a l => rfl
  refine ⟨?_, ?_, ?_⟩
  · simp [forwardBridge, hie]
  · simp [forwardBridge, hie, List.filter_cons, Command.isMaster, filter_isMaster_map_slave]
  · intro h
    simp only [forwardBridge, hie, Bool.false_eq_true, if_false, List.filter_cons]
    rw [show Command.isSlaveFor h Command.launchMaster = false from rfl]
    simp only [Bool.false_eq_true, if_false]
    rw [length_filter_isSlaveFor_map_slave, length_filter_aggregate]

/-- Witness for C4 at the scenario snapshot: no error, one master launch,
and one slave launch for host A. -/
theorem C4_one_master_one_slave_per_host_witness :
    (forwardBridge c2snapshot "spark://A:7077").2 = none ∧
      ((forwardBridge c2snapshot "spark://A:7077").1.filter Command.isMaster).length = 1 ∧
      ((forwardBridge c2snapshot "spark://A:7077").1.filter
          (Command.isSlaveFor "A")).length =
        if (firstAddr c2snapshot "A").isSome then 1 else 0 :=
  ⟨(C4_one_master_one_slave_per_host c2snapshot "spark://A:7077" (by decide)).1,
   (C4_one_master_one_slave_per_host c2snapshot "spark://A:7077" (by decide)).2.1,
   (C4_one_master_one_slave_per_host c2snapshot "spark://A:7077" (by decide)).2.2 "A"⟩

theorem pollUntilClosed_events (status : Nat → String) :
    ∀ fuel i evs, pollUntilClosed status i fuel = some evs →
      ∀ e ∈ evs, ∃ s, e = WEvent.pollStatus s ∧ s ≠ "closed" := by
  intro fuel
  induction fuel with
  | zero =>
    intro i evs h
    exact Option.noConfusion h
  | succ f ih =>
    intro i evs h
    by_cases hc : status i = "closed"
    · simp only [pollUntilClosed, if_pos hc] at h
      cases h
      intro e he
      exact absurd he (List.not_mem_nil e)
    · simp only [pollUntilClosed, if_neg hc] at h
      cases hrec : pollUntilClosed status (i + 1) f with
      | none =>
        rw [hrec] at h
        exact Option.noConfusion h
      | some evs2 =>
        rw [hrec] at h
        cases h
        intro e he
        rcases List.mem_cons.mp he with he1 | he2
        · exact ⟨status i, he1, hc⟩
        · exact ih (i + 1) evs2 hrec e he2

/-- C6: per-slot idempotence and completion of `start_worker`: with the
slot marker set it returns `['already occupied']` at once and starts no
worker; with the slot free, a terminating run starts exactly one worker,
keeps the marker set for the whole wait (only status polls happen between
`setMarker` and `clearMarker`), clears the marker once the status reaches
'closed', and returns `['completed']`. -/
theorem C6_slot_idempotent_and_completes (address : String) (status : Nat → String)
    (fuel : Nat) :
    (start_worker address true status fuel = some [WEvent.ret ["already occupied"]] ∧
      ∀ t, start_worker address true status fuel = some t →
        WEvent.startWorker address ∉ t) ∧
      ∀ t, start_worker address false status fuel = some t →
        ∃ polls, (∀ e ∈ polls, ∃ s, e = WEvent.pollStatus s ∧ s ≠ "closed") ∧
          t = [WEvent.startWorker address, WEvent.setMarker] ++ polls ++
            [WEvent.clearMarker, WEvent.ret ["completed"]] := by
  refine ⟨⟨rfl, ?_⟩, ?_⟩
  · intro t h
    have h2 : some [WEvent.ret ["already occupied"]] = some t := h
    cases h2
    simp
  · intro t h
    simp only [start_worker, Bool.false_eq_true, if_false] at h
    cases hrec : pollUntilClosed status 0 fuel with
    | none =>
      rw [hrec] at h
      exact Option.noConfusion h
    | some evs =>
      rw [hrec] at h
      cases h
      exact ⟨evs, pollUntilClosed_events status fuel 0 evs hrec, rfl⟩

/-- Witness for C6: with the marker set the call returns
`['already occupied']`; with the marker free and a status trajectory that
closes at the second check, the run is start, set marker, one non-closed
poll, clear marker, return `['completed']`. -/
theorem C6_slot_idempotent_and_completes_witness :
    start_worker "tcp://10.0.0.1:8786" true statusSeq 3 =
        some [WEvent.ret ["already occupied"]] ∧
      ∃ polls, (∀ e ∈ polls, ∃ s, e = WEvent.pollStatus s ∧ s ≠ "closed") ∧
        [WEvent.startWorker "tcp://10.0.0.1:8786", WEvent.setMarker,
            WEvent.pollStatus "running", WEvent.clearMarker,
            WEvent.ret ["completed"]] =
          [WEvent.startWorker "tcp://10.0.0.1:8786", WEvent.setMarker] ++ polls ++
            [WEvent.clearMarker, WEvent.ret ["completed"]] :=
  ⟨(C6_slot_idempotent_and_completes "tcp://10.0.0.1:8786" statusSeq 3).1.1,
   (C6_slot_idempotent_and_completes "tcp://10.0.0.1:8786" statusSeq 3).2
     [WEvent.startWorker "tcp://10.0.0.1:8786", WEvent.setMarker,
       WEvent.pollStatus "running", WEvent.clearMarker, WEvent.ret ["completed"]]
     (by rfl)⟩

/-- C7: `start_slave` always returns the fixed token `'OK'` (independent of
its arguments), and the memory figure is passed on the slave argv as the
decimal integer truncation of the memory value followed by the
one-character suffix 'B'. -/
theorem C7_slave_token_and_memory_format (master : String) (cores : Nat) (memory : Rat)
    (master2 : String) (cores2 : Nat) (memory2 : Rat) :
    (start_slave master cores memory).2 = "OK" ∧
      (start_slave master cores memory).2 = (start_slave master2 cores2 memory2).2 ∧
      (start_slave master cores memory).1.getLast? =
        some (toString (pyInt memory) ++ "B") ∧
      "B".length = 1 :=
  ⟨rfl, rfl, rfl, rfl⟩

theorem lookupKey_dictInsert_self (d : List (String × Nat)) (k : String) (v : Nat) :
    lookupKey (dictInsert d k v) k = some v := by
  induction d with
  | nil => simp [dictInsert, lookupKey]
  | cons p rest ih =>
    obtain ⟨k2, v2⟩ := p
    by_cases hk : k2 = k
    · simp [dictInsert, lookupKey, hk]
    · simp [dictInsert, lookupKey, hk, ih]

/-- C9: registration of the master process handle in the scheduler's
'spark' extension slot is last-write-wins: after a first successful
`start_master`, a second call on the resulting scheduler state succeeds
(it is not rejected), leaves the slot holding the new handle, and — when
the two handles differ — the prior handle is no longer registered. -/
theorem C9_master_slot_last_write_wins (address : String) (port : Nat) (p1 p2 : Nat)
    (ext : List (String × Nat)) (r1 : MasterResult)
    (h1 : start_master address port p1 ext = Except.ok r1) :
    ∃ r2, start_master address port p2 r1.extensions = Except.ok r2 ∧
      lookupKey r2.extensions "spark" = some p2 ∧
      (p1 ≠ p2 → ¬ lookupKey r2.extensions "spark" = some p1) := by
  unfold start_master at h1
  split at h1
  · next scheme hostRaw tail heq =>
    cases h1
    unfold start_master
    rw [heq]
    refine ⟨_, rfl, ?_, ?_⟩
    · exact lookupKey_dictInsert_self _ "spark" p2
    · intro hne hc
      rw [lookupKey_dictInsert_self _ "spark" p2] at hc
      exact hne (Option.some.inj hc).symm
  · exact Except.noConfusion h1

/-- Witness for C9: two successive `start_master` calls on a tcp scheduler
address; the slot ends holding the second handle only. -/
theorem C9_master_slot_last_write_wins_witness :
    ∃ r2, start_master "tcp://127.0.0.1:8786" 7077 2
        (MasterResult.extensions
          { master := "spark://127.0.0.1:7077"
            argv := ["start-master.sh", "--host", "127.0.0.1", "--port", "7077"]
            extensions := [("spark", 1)] }) = Except.ok r2 ∧
      lookupKey r2.extensions "spark" = some 2 ∧
      ((1 : Nat) ≠ 2 → ¬ lookupKey r2.extensions "spark" = some 1) :=
  C9_master_slot_last_write_wins "tcp://127.0.0.1:8786" 7077 1 2 []
    { master := "spark://127.0.0.1:7077"
      argv := ["start-master.sh", "--host", "127.0.0.1", "--port", "7077"]
      extensions := [("spark", 1)] } (by rfl)

/-- C10: the master address returned by `start_master` always has the
literal scheme 'spark' and the given port: it is
`'spark://' ++ strip(host component of the scheduler address) ++ ':' ++ port`,
whatever the scheme component of the scheduler's own address is. -/
theorem C10_master_address_scheme_spark (address : String) (port : Nat) (proc : Nat)
    (ext : List (String × Nat)) (scheme hostRaw tail : List Char) (r : MasterResult)
    (hsp : splitColon address.toList = [scheme, hostRaw, tail])
    (hok : start_master address port proc ext = Except.ok r) :
    r.master = "spark://" ++ String.mk (pyStrip hostRaw) ++ ":" ++ toString port := by
  unfold start_master at hok
  rw [hsp] at hok
  cases hok
  rfl

/-- Witness for C10: a tcp scheduler address yields a spark master
address with the stripped host and the given port. -/
theorem C10_master_address_scheme_spark_witness :
    MasterResult.master
        { master := "spark://127.0.0.1:7077"
          argv := ["start-master.sh", "--host", "127.0.0.1", "--port", "7077"]
          extensions := [("spark", 5)] } =
      "spark://" ++ String.mk (pyStrip "//127.0.0.1".toList) ++ ":" ++ toString 7077 :=
  C10_master_address_scheme_spark "tcp://127.0.0.1:8786" 7077 5 []
    "tcp".toList "//127.0.0.1".toList "8786".toList
    { master := "spark://127.0.0.1:7077"
      argv := ["start-master.sh", "--host", "127.0.0.1", "--port", "7077"]
      extensions := [("spark", 5)] } (by rfl) (by rfl)
